import Mathlib

/-
  Shallow embedding of the lzop-container indexer (indexer.go) and proofs
  about its header parser, block scanner and index writer.

  Conventions of the embedding:
  * A source file is a byte stream modelled as a list of natural numbers;
    every read takes the byte modulo 256, so arbitrary lists are harmless.
  * Reads that the Go code performs through binary.Read / io.ReadFull are
    modelled by readBytes: a read at or past the end of the list yields the
    Go io.EOF error, a read that begins inside the list but runs past the
    end yields io.ErrUnexpectedEOF, mirroring io.ReadFull.
  * Machine integers are Nat; all parsed fields are at most 32 bits wide by
    construction (big-endian assembly of at most four bytes modulo 256).
  * The Go loop in CreateIndex is modelled by a fuel-indexed iteration
    scanAux with fuel length + 1; the theorem scanAux_fuel proves the
    result does not depend on the fuel once the fuel is at least
    length + 1 - position, so the model agrees with the unbounded loop.
  * Go panics (nil-pointer dereference, out-of-range slice index) are
    modelled explicitly: putUint64 returns none when the buffer is shorter
    than 8 bytes, and CreateIndex has a distinguished panicked outcome.
-/

/-- A byte stream: the contents of the source file. -/
abbrev ByteStream := List Nat

deriving instance DecidableEq for Except

/-- Errors produced by the modelled read primitives: io.EOF when the read
starts at or beyond the end of the stream, io.ErrUnexpectedEOF when it
starts inside the stream but runs off the end. -/
inductive IOErr where
  | eofErr
  | unexpectedEof
deriving DecidableEq

/-- Errors returned by readHeader. readFail wraps a read error;
invalidHeader is the Go error string lzo: invalid header, incompatibleVersion
is lzo: incompatible version, incompatibleMethod is lzo: incompatible method. -/
inductive HErr where
  | readFail (e : IOErr)
  | invalidHeader
  | incompatibleVersion
  | incompatibleMethod
deriving DecidableEq

/-- Terminal conditions of the block scan. readFail IOErr.eofErr is the Go
value io.EOF, which findBlock also stores when it meets the sentinel block;
corruption is the Go error string lzo: data corruption. -/
inductive BlockErr where
  | readFail (e : IOErr)
  | corruption
deriving DecidableEq

/-- Model of io.ReadFull on the stream: read n bytes starting at pos. -/
def readBytes (s : ByteStream) (pos n : Nat) : Except IOErr (List Nat) :=
  if pos + n ≤ s.length then .ok ((s.drop pos).take n)
  else if s.length ≤ pos then .error .eofErr
  else .error .unexpectedEof

/-- Big-endian value of a byte list (each entry taken modulo 256). -/
def beVal (bs : List Nat) : Nat :=
  bs.foldl (fun a b => a * 256 + b % 256) 0

/-- binary.Read of a uint8. -/
def readU8 (s : ByteStream) (pos : Nat) : Except IOErr Nat :=
  (readBytes s pos 1).map beVal

/-- binary.Read of a big-endian uint16. -/
def readU16 (s : ByteStream) (pos : Nat) : Except IOErr Nat :=
  (readBytes s pos 2).map beVal

/-- binary.Read of a big-endian uint32. -/
def readU32 (s : ByteStream) (pos : Nat) : Except IOErr Nat :=
  (readBytes s pos 4).map beVal

/-- The package constant version = 0x1030 from indexer.go. -/
def version : Nat := 0x1030

/-- Flag bits from indexer.go. -/
def flagAdler32D : Nat := 1
def flagAdler32C : Nat := 2
def flagCRC32D : Nat := 256
def flagCRC32C : Nat := 512
def flagFilter : Nat := 2048
def flagCRC32 : Nat := 4096

/-- The 9 magic bytes of the lzop container. -/
def lzoMagic : List Nat := [0x89, 0x4c, 0x5a, 0x4f, 0x00, 0x0d, 0x0a, 0x1a, 0x0a]

/-- One shift-xor round of the reflected CRC-32 (IEEE polynomial 0xEDB88320). -/
def crc32Round (c : Nat) : Nat :=
  if c % 2 = 1 then (c / 2) ^^^ 0xEDB88320 else c / 2

/-- CRC-32 update by one byte: xor the byte in, then eight rounds. -/
def crc32Byte (crc b : Nat) : Nat :=
  crc32Round (crc32Round (crc32Round (crc32Round
    (crc32Round (crc32Round (crc32Round (crc32Round (crc ^^^ b % 256))))))))

/-- CRC-32 (IEEE) of a byte list, as computed by hash/crc32.NewIEEE. -/
def crc32 (bs : List Nat) : Nat :=
  (bs.foldl crc32Byte 0xFFFFFFFF) ^^^ 0xFFFFFFFF

/-- Adler-32 of a byte list, as computed by hash/adler32. -/
def adler32 (bs : List Nat) : Nat :=
  let p := bs.foldl
    (fun q c =>
      let a := (q.1 + c % 256) % 65521
      (a, (q.2 + a) % 65521))
    ((1, 0) : Nat × Nat)
  p.2 * 65536 + p.1

/-- Decoded header fields of the Indexer (struct IndexHeader plus the
checksum counts and, as an explicit model of the file cursor, the stream
position immediately after the bytes consumed so far). modTime keeps the
raw parsed seconds value standing in for the Go time.Time. -/
structure IndexHeader where
  modTime : Nat
  name : List Nat
  flags : Nat
  version : Nat
  libraryVersion : Nat
  method : Nat
  num_compressed_checksums : Nat
  num_decompressed_checksums : Nat
  pos : Nat
deriving DecidableEq

/-- The header bytes that the running checksums observe: every byte consumed
after the magic (both hashes are reset right after the magic is read) up to,
but excluding, the byte at position pos. -/
def headerBytes (s : ByteStream) (pos : Nat) : List Nat :=
  (s.drop 9).take (pos - 9)

/-- readHeader from indexer.go, up to but excluding the trailing header
checksum field: magic, version, library versions, method, level, flags,
optional filter, checksum counts, mode, times, name. The result carries the
position of the checksum field in pos.

Fidelity notes, each mirroring a line of the source:
* the version floor test is literally `if version < 0x0900` on the package
  constant, not on the parsed value — kept verbatim below;
* the three other version gates (second library version, level,
  modTimeHigh) also test the package constant 0x1030, so they always hold;
  those reads are therefore unconditional here, with a comment at each;
* the ModTime reset gate `version < 0x0120` likewise tests the constant and
  never fires; it is kept verbatim. -/
def readHeaderPre (s : ByteStream) : Except HErr IndexHeader :=
  match readBytes s 0 9 with
  | .error e => .error (.readFail e)
  | .ok magicBytes =>
  if magicBytes ≠ lzoMagic then .error .invalidHeader else
  -- both running checksums are reset here; headerBytes starts at offset 9
  match readU16 s 9 with
  | .error e => .error (.readFail e)
  | .ok ver =>
  -- source line 111: the test is on the package constant, not on ver
  if version < 0x0900 then .error .invalidHeader else
  match readU16 s 11 with
  | .error e => .error (.readFail e)
  | .ok _libv1 =>
  -- source gate `version >= 0x0940` on the constant 0x1030: always taken
  match readU16 s 13 with
  | .error e => .error (.readFail e)
  | .ok libv =>
  if libv > ver then .error .incompatibleVersion else
  if libv < 0x0900 then .error .invalidHeader else
  match readU8 s 15 with
  | .error e => .error (.readFail e)
  | .ok method =>
  -- level read, gated on the constant: always taken, value discarded
  match readU8 s 16 with
  | .error e => .error (.readFail e)
  | .ok _level =>
  match readU32 s 17 with
  | .error e => .error (.readFail e)
  | .ok flags =>
  match (if flags &&& flagFilter ≠ 0 then (readU32 s 21).map fun _ => 25 else .ok 21) with
  | .error e => .error (.readFail e)
  | .ok pos1 =>
  let num_compressed_checksums :=
    (if flags &&& flagAdler32C ≠ 0 then 1 else 0) +
    (if flags &&& flagCRC32C ≠ 0 then 1 else 0)
  let num_decompressed_checksums :=
    (if flags &&& flagAdler32D ≠ 0 then 1 else 0) +
    (if flags &&& flagCRC32D ≠ 0 then 1 else 0)
  match readU32 s pos1 with
  | .error e => .error (.readFail e)
  | .ok _mode =>
  match readU32 s (pos1 + 4) with
  | .error e => .error (.readFail e)
  | .ok modTime =>
  -- modTimeHigh read, gated on the constant: always taken, value discarded
  match readU32 s (pos1 + 8) with
  | .error e => .error (.readFail e)
  | .ok _modTimeHigh =>
  -- source line 186: again a test on the constant; never fires
  let modTime := if version < 0x0120 then 0 else modTime
  match readU8 s (pos1 + 12) with
  | .error e => .error (.readFail e)
  | .ok l =>
  match (if l > 0 then readBytes s (pos1 + 13) l else .ok []) with
  | .error e => .error (.readFail e)
  | .ok name =>
  .ok { modTime := modTime, name := name, flags := flags, version := ver,
        libraryVersion := libv, method := method,
        num_compressed_checksums := num_compressed_checksums,
        num_decompressed_checksums := num_decompressed_checksums,
        pos := pos1 + 13 + l }

/-- readHeader from indexer.go: the field parse, then the header checksum
verification (CRC-32 when flagCRC32 is set, Adler-32 otherwise, over all
bytes consumed since the magic and excluding the checksum field itself),
then the method check `z.method <= 0`. On success pos is the position of
the first block. -/
def readHeader (s : ByteStream) : Except HErr IndexHeader :=
  match readHeaderPre s with
  | .error e => .error e
  | .ok pre =>
    let checksum :=
      if pre.flags &&& flagCRC32 ≠ 0 then crc32 (headerBytes s pre.pos)
      else adler32 (headerBytes s pre.pos)
    match readU32 s pre.pos with
    | .error e => .error (.readFail e)
    | .ok checksumHeader =>
      if checksumHeader ≠ checksum then .error .invalidHeader
      else if pre.method ≤ 0 then .error .incompatibleMethod
      else .ok { pre with pos := pre.pos + 4 }

/-- Mutable scanner state: the file cursor and the accumulated offset list
z.indexes. -/
structure ScanState where
  pos : Nat
  indexes : List Nat
deriving DecidableEq

/-- findBlock from indexer.go, one scan step. Returns the updated state and
the value stored into z.err (none when the step succeeded).

Field-by-field fidelity:
* read dstLen (u32); a failed read is returned as is and, in the model, the
  cursor is left where the bytes consumed by the partial read end;
* dstLen = 0 is the sentinel: z.err is set to the Go value io.EOF;
* read srcLen (u32); `srcLen <= 0 || srcLen > dstLen` is the corruption
  test (srcLen is unsigned, so the first disjunct means srcLen = 0);
* num_chksms_to_skip, skip, position (the Seek with whence current, which
  cannot fail on a regular file), block_start = position - 8,
  next_block = position + srcLen + skip, append, Seek to next_block. -/
def findBlock (numD numC : Nat) (s : ByteStream) (st : ScanState) : ScanState × Option BlockErr :=
  match readU32 s st.pos with
  -- io.EOF: zero bytes were read, the cursor is unchanged
  | .error .eofErr => (st, some (.readFail .eofErr))
  -- a partial read consumed the remaining bytes
  | .error .unexpectedEof => ({ st with pos := s.length }, some (.readFail .unexpectedEof))
  | .ok dstLen =>
    if dstLen = 0 then ({ st with pos := st.pos + 4 }, some (.readFail .eofErr))
    else
      match readU32 s (st.pos + 4) with
      | .error .eofErr => ({ st with pos := st.pos + 4 }, some (.readFail .eofErr))
      | .error .unexpectedEof => ({ st with pos := s.length }, some (.readFail .unexpectedEof))
      | .ok srcLen =>
        if srcLen ≤ 0 ∨ srcLen > dstLen then
          ({ st with pos := st.pos + 8 }, some .corruption)
        else
          let num_chksms_to_skip := numD + (if dstLen = srcLen then numC else 0)
          let skip := 4 * num_chksms_to_skip
          let position := st.pos + 8
          let block_start := position - 8
          let next_block := position + srcLen + skip
          ({ pos := next_block, indexes := st.indexes ++ [block_start] }, none)

/-- The scan loop of CreateIndex, iterated with explicit fuel. With fuel at
least length + 1 - pos the fuel never runs out — when the cursor is past the
end of the stream, findBlock itself stops with io.EOF and an unchanged
state, which is exactly what the fuel-exhausted base case returns, and
scanAux_fuel below proves the fuel independence — so scan agrees with the
unbounded Go loop. -/
def scanAux (numD numC : Nat) (s : ByteStream) : Nat → ScanState → ScanState × BlockErr
  | 0, st => (st, .readFail .eofErr)
  | fuel + 1, st =>
    match findBlock numD numC s st with
    | (st', some e) => (st', e)
    | (st', none) => scanAux numD numC s fuel st'

/-- The scan loop of CreateIndex: iterate findBlock until z.err is set. -/
def scan (numD numC : Nat) (s : ByteStream) (st : ScanState) : ScanState × BlockErr :=
  scanAux numD numC s (s.length + 1) st

/-- Big-endian 8-byte encoding of a value (binary.BigEndian.PutUint64
payload). -/
def be64 (v : Nat) : List Nat :=
  [v / 2 ^ 56 % 256, v / 2 ^ 48 % 256, v / 2 ^ 40 % 256, v / 2 ^ 32 % 256,
   v / 2 ^ 24 % 256, v / 2 ^ 16 % 256, v / 2 ^ 8 % 256, v % 256]

/-- binary.BigEndian.PutUint64: writes the 8-byte big-endian encoding into
the first 8 bytes of b. Its bounds check `_ = b[7]` panics when b has fewer
than 8 bytes; the panic is modelled as none. -/
def putUint64 (b : List Nat) (v : Nat) : Option (List Nat) :=
  if 8 ≤ b.length then some (be64 v ++ b.drop 8) else none

/-- The index-writing loop of CreateIndex: for each recorded offset,
allocate tmp as a zero-length byte slice, PutUint64 into it, and write tmp
to the index file. none models the panic raised by PutUint64. -/
def writeIndexes : List Nat → Option (List Nat)
  | [] => some []
  | num :: rest =>
    -- tmp := []byte{}
    match putUint64 [] num with
    | none => none
    | some tmp =>
      match writeIndexes rest with
      | none => none
      | some out => some (tmp ++ out)

/-- How a CreateIndex call ends: a nil return, a returned indexer error, or
a runtime panic. -/
inductive CIOutcome where
  | ok
  | errOut (e : BlockErr)
  | panicked
deriving DecidableEq

/-- The observable result of CreateIndex: the content of the sibling index
file after the call (none meaning no such file exists) and the way the call
ended. -/
structure CIResult where
  indexFile : Option (List Nat)
  outcome : CIOutcome
deriving DecidableEq

/-- CreateIndex from indexer.go, on a source file with contents s (the two
os calls that open the source and create the index file are assumed to
succeed; os.Create truncates the index file to empty before any parsing).

Fidelity notes:
* the error returned by NewIndexer is assigned but never tested; when the
  header is invalid the loop then calls findBlock on a nil Indexer and
  dereferences z.r — a nil-pointer panic, modelled as panicked (the empty
  index file created beforehand stays on disk);
* the loop runs findBlock until z.err is set, then the offsets are written
  if and only if indexer.err == io.EOF;
* a panic inside the write loop likewise leaves the created file as is. -/
def CreateIndex (s : ByteStream) : CIResult :=
  match readHeader s with
  | .error _ => { indexFile := some [], outcome := .panicked }
  | .ok hdr =>
    match scan hdr.num_decompressed_checksums hdr.num_compressed_checksums s
        { pos := hdr.pos, indexes := [] } with
    | (st, e) =>
      if e = BlockErr.readFail .eofErr then
        match writeIndexes st.indexes with
        | some content => { indexFile := some content, outcome := .ok }
        | none => { indexFile := some [], outcome := .panicked }
      else { indexFile := some [], outcome := .errOut e }

/-- A recorded offset addresses a well-formed pair of block length fields:
4 bytes of nonzero dstLen followed by 4 bytes of srcLen with
0 < srcLen ≤ dstLen. -/
def goodBlockAt (s : ByteStream) (o : Nat) : Prop :=
  ∃ dl sl, readU32 s o = .ok dl ∧ readU32 s (o + 4) = .ok sl ∧
    dl ≠ 0 ∧ 0 < sl ∧ sl ≤ dl

/-- Invariant carried by the scan loop: the offset list is strictly
increasing, every recorded offset lies at least 8 bytes before the cursor,
and every recorded offset addresses well-formed block length fields. -/
def scanInv (s : ByteStream) (st : ScanState) : Prop :=
  st.indexes.Pairwise (· < ·) ∧
    ∀ o ∈ st.indexes, o + 8 ≤ st.pos ∧ goodBlockAt s o

/-- Big-endian 4-byte encoding of a value. -/
def be32 (v : Nat) : List Nat :=
  [v / 2 ^ 24 % 256, v / 2 ^ 16 % 256, v / 2 ^ 8 % 256, v % 256]

/-- Header bytes after the magic for the concrete streams used below:
version 0x1030, library version 0x0940 twice, method 1, level 5, flags 0,
mode 0, modTime 0, modTimeHigh 0, empty name. -/
def plainHdrTail : List Nat :=
  [0x10, 0x30, 0x09, 0x40, 0x09, 0x40, 1, 5,
   0, 0, 0, 0, 0, 0, 0, 0, 0, 0, 0, 0, 0, 0, 0, 0, 0]

/-- A fully valid header: magic, the plain fields, and the correct Adler-32
header checksum (flags are 0, so Adler-32 is selected). -/
def plainHeader : List Nat :=
  lzoMagic ++ plainHdrTail ++ be32 (adler32 plainHdrTail)

/-- Source stream for claim C2: valid header, one stored block of 4 bytes
(dstLen = srcLen = 4, no checksum fields), then the sentinel. Its offset
list is [38], so the index write loop runs once. -/
def c2ByteStream : List Nat :=
  plainHeader ++ [0, 0, 0, 4, 0, 0, 0, 4, 9, 9, 9, 9, 0, 0, 0, 0]

/-- Source stream for claim C1 (scenario C of the spec): the first magic
byte altered from 0x89 to 0x88. -/
def c1s : List Nat := [0x88, 0x4c, 0x5a, 0x4f, 0x00, 0x0d, 0x0a, 0x1a, 0x0a]

/-- Source stream for claim C3: nine bytes that are not the magic. -/
def c3s : List Nat := [1, 2, 3, 4, 5, 6, 7, 8, 9]

/-- Source stream for claim C4: valid magic followed by the format version
0x0800, below the minimum 0x0900, with the stream ending there. -/
def c4a : List Nat := lzoMagic ++ [0x08, 0x00]

/-- Source stream for claim C4: valid magic, format version 0x0800, then
library version 0x0900 twice. -/
def c4b : List Nat := lzoMagic ++ [0x08, 0x00, 0x09, 0x00, 0x09, 0x00]

/-- Stream of blocks for the claim C5 witness, scanned from position 0 with
no checksum fields: a stored block with srcLen 1, a stored block with
srcLen 2, then the sentinel. -/
def w5 : List Nat :=
  [0, 0, 0, 1, 0, 0, 0, 1, 0xAA,
   0, 0, 0, 2, 0, 0, 0, 2, 0xBB, 0xCC,
   0, 0, 0, 0]

/-- Stream for the claim C6 witness: a valid header shape whose declared
header checksum field is 0, which does not match the Adler-32 of the header
bytes. -/
def w6 : List Nat := lzoMagic ++ plainHdrTail ++ [0, 0, 0, 0]

/-- The header value produced by readHeaderPre on w6 (and on the header part
of c2ByteStream): the checksum field sits at position 34. -/
def w6hdr : IndexHeader :=
  { modTime := 0, name := [], flags := 0, version := 0x1030,
    libraryVersion := 0x0940, method := 1,
    num_compressed_checksums := 0, num_decompressed_checksums := 0,
    pos := 34 }

/-- Stream of blocks for the claim C7 witness: dstLen 1, srcLen 2 — an
expanding block, which the scanner must reject. -/
def w7 : List Nat := [0, 0, 0, 1, 0, 0, 0, 2]

/-
  Helper lemmas, shared by the claim theorems below.
-/

/-- A successful 4-byte read means the 4 bytes lie inside the stream. -/
theorem readU32_ok_le (s : ByteStream) (p v : Nat) (h : readU32 s p = .ok v) :
    p + 4 ≤ s.length := by
  unfold readU32 readBytes at h
  split at h
  · assumption
  · split at h <;> simp [Except.map] at h

/-- Reading at or past the end of the stream yields io.EOF. -/
theorem readU32_past (s : ByteStream) (p : Nat) (h : s.length ≤ p) :
    readU32 s p = .error .eofErr := by
  unfold readU32 readBytes
  rw [if_neg (by omega), if_pos h]
  rfl

/-- An unexpected-end read starts inside the stream. -/
theorem readU32_uneof (s : ByteStream) (p : Nat)
    (h : readU32 s p = .error .unexpectedEof) : p ≤ s.length := by
  unfold readU32 readBytes at h
  split at h
  · simp [Except.map] at h
  · split at h
    · simp [Except.map] at h
    · omega

/-- A successful findBlock step reads 8 bytes inside the stream, advances
the cursor by at least 9 bytes, appends exactly the old cursor position to
the offset list, and that position addresses well-formed block length
fields. -/
theorem findBlock_ok (numD numC : Nat) (s : ByteStream) (st st' : ScanState)
    (h : findBlock numD numC s st = (st', none)) :
    st.pos + 8 ≤ s.length ∧ st.pos + 9 ≤ st'.pos ∧
    st'.indexes = st.indexes ++ [st.pos] ∧ goodBlockAt s st.pos := by
  unfold findBlock at h
  split at h
  · simp at h
  · simp at h
  next dstLen h1 =>
    split at h
    · simp at h
    next h2 =>
      split at h
      · simp at h
      · simp at h
      next srcLen h3 =>
        split at h
        · simp at h
        next h4 =>
          push_neg at h4
          obtain ⟨hsl, hsd⟩ := h4
          have hle := readU32_ok_le s (st.pos + 4) srcLen h3
          simp only [Prod.mk.injEq] at h
          obtain ⟨hst, -⟩ := h
          subst hst
          exact ⟨by omega, by simp; omega, by simp, dstLen, srcLen, h1, h3, h2, by omega, by omega⟩

/-- A failed findBlock step leaves the offset list unchanged and never
moves the cursor backwards. -/
theorem findBlock_err (numD numC : Nat) (s : ByteStream) (st st' : ScanState) (e : BlockErr)
    (h : findBlock numD numC s st = (st', some e)) :
    st'.indexes = st.indexes ∧ st.pos ≤ st'.pos := by
  unfold findBlock at h
  split at h
  next h1 =>
    simp only [Prod.mk.injEq] at h
    obtain ⟨hst, -⟩ := h
    subst hst
    exact ⟨rfl, le_refl _⟩
  next h1 =>
    simp only [Prod.mk.injEq] at h
    obtain ⟨hst, -⟩ := h
    subst hst
    exact ⟨rfl, readU32_uneof s st.pos h1⟩
  next dstLen h1 =>
    split at h
    · simp only [Prod.mk.injEq] at h
      obtain ⟨hst, -⟩ := h
      subst hst
      exact ⟨rfl, Nat.le_add_right _ 4⟩
    next h2 =>
      split at h
      · simp only [Prod.mk.injEq] at h
        obtain ⟨hst, -⟩ := h
        subst hst
        exact ⟨rfl, Nat.le_add_right _ 4⟩
      next h3 =>
        simp only [Prod.mk.injEq] at h
        obtain ⟨hst, -⟩ := h
        subst hst
        have := readU32_uneof s (st.pos + 4) h3
        refine ⟨rfl, ?_⟩
        show st.pos ≤ s.length
        omega
      next srcLen h3 =>
        split at h
        next h4 =>
          simp only [Prod.mk.injEq] at h
          obtain ⟨hst, -⟩ := h
          subst hst
          exact ⟨rfl, Nat.le_add_right _ 8⟩
        · simp at h

/-- One findBlock step preserves the scan invariant. -/
theorem findBlock_inv (numD numC : Nat) (s : ByteStream) (st : ScanState)
    (h : scanInv s st) : scanInv s (findBlock numD numC s st).1 := by
  rcases hfb : findBlock numD numC s st with ⟨st', e⟩
  cases e with
  | some e =>
    dsimp only
    obtain ⟨hidx, hpos⟩ := findBlock_err numD numC s st st' e hfb
    refine ⟨hidx ▸ h.1, fun o ho => ?_⟩
    rw [hidx] at ho
    obtain ⟨h8, hg⟩ := h.2 o ho
    exact ⟨by omega, hg⟩
  | none =>
    dsimp only
    obtain ⟨hlen, hpos, hidx, hgood⟩ := findBlock_ok numD numC s st st' hfb
    constructor
    · rw [hidx]
      refine List.pairwise_append.mpr ⟨h.1, List.pairwise_singleton .., ?_⟩
      intro a ha b hb
      rw [List.mem_singleton] at hb
      subst hb
      have := (h.2 a ha).1
      omega
    · intro o ho
      rw [hidx, List.mem_append, List.mem_singleton] at ho
      rcases ho with ho | ho
      · obtain ⟨h8, hg⟩ := h.2 o ho
        exact ⟨by omega, hg⟩
      · subst ho
        exact ⟨by omega, hgood⟩

/-- Unfolding step of the scan loop on a successful findBlock. -/
theorem scanAux_step (numD numC : Nat) (s : ByteStream) (f : Nat) (st st' : ScanState)
    (h : findBlock numD numC s st = (st', none)) :
    scanAux numD numC s (f + 1) st = scanAux numD numC s f st' := by
  simp only [scanAux, h]

/-- Unfolding step of the scan loop on a failed findBlock. -/
theorem scanAux_stop (numD numC : Nat) (s : ByteStream) (f : Nat) (st st' : ScanState)
    (e : BlockErr) (h : findBlock numD numC s st = (st', some e)) :
    scanAux numD numC s (f + 1) st = (st', e) := by
  simp only [scanAux, h]

/-- The scan loop preserves the scan invariant, for any fuel. -/
theorem scanAux_inv (numD numC : Nat) (s : ByteStream) (fuel : Nat) :
    ∀ st : ScanState, scanInv s st → scanInv s (scanAux numD numC s fuel st).1 := by
  induction fuel with
  | zero => exact fun st h => h
  | succ fuel ih =>
    intro st h
    have hinv := findBlock_inv numD numC s st h
    rcases hfb : findBlock numD numC s st with ⟨st', e⟩
    rw [hfb] at hinv
    cases e with
    | some e => rw [scanAux_stop numD numC s fuel st st' e hfb]; exact hinv
    | none => rw [scanAux_step numD numC s fuel st st' hfb]; exact ih st' hinv

/-- Fuel independence: once the fuel is at least length + 1 - pos the scan
loop never exhausts it, so the fuel-indexed model computes the fixpoint of
the unbounded Go loop. -/
theorem scanAux_fuel (numD numC : Nat) (s : ByteStream) :
    ∀ f g : Nat, ∀ st : ScanState,
      s.length + 1 - st.pos ≤ f → s.length + 1 - st.pos ≤ g →
      scanAux numD numC s f st = scanAux numD numC s g st := by
  intro f
  induction f with
  | zero =>
    intro g st h1 h2
    have hfb : findBlock numD numC s st = (st, some (.readFail .eofErr)) := by
      unfold findBlock
      rw [readU32_past s st.pos (by omega)]
    cases g with
    | zero => rfl
    | succ g => rw [scanAux_stop numD numC s g st st (.readFail .eofErr) hfb]; rfl
  | succ f ih =>
    intro g st h1 h2
    by_cases hp : s.length ≤ st.pos
    · have hfb : findBlock numD numC s st = (st, some (.readFail .eofErr)) := by
        unfold findBlock
        rw [readU32_past s st.pos hp]
      rw [scanAux_stop numD numC s f st st (.readFail .eofErr) hfb]
      cases g with
      | zero => rfl
      | succ g => rw [scanAux_stop numD numC s g st st (.readFail .eofErr) hfb]
    · cases g with
      | zero => omega
      | succ g =>
        rcases hfb : findBlock numD numC s st with ⟨st', e⟩
        cases e with
        | some e =>
          rw [scanAux_stop numD numC s f st st' e hfb,
              scanAux_stop numD numC s g st st' e hfb]
        | none =>
          rw [scanAux_step numD numC s f st st' hfb,
              scanAux_step numD numC s g st st' hfb]
          obtain ⟨hlen, hpos, -, -⟩ := findBlock_ok numD numC s st st' hfb
          exact ih g st' (by omega) (by omega)

/-- The index write loop succeeds only on the empty offset list, and then
writes nothing. -/
theorem writeIndexes_some (l c : List Nat) (h : writeIndexes l = some c) :
    l = [] ∧ c = [] := by
  cases l with
  | nil =>
    refine ⟨rfl, ?_⟩
    simpa [writeIndexes] using h.symm
  | cons n rest => simp [writeIndexes, putUint64] at h

/-
  The claim theorems.
-/

/-- Claim C1, counterexample: on the scenario C input (the first magic byte
altered), the scan does not terminate via EndOfStream, yet CreateIndex
leaves an index file on disk — refuting the claim that any terminal
condition other than EndOfStream leaves no index file. -/
theorem claim1_counterexample :
    (CreateIndex c1s).outcome ≠ CIOutcome.ok ∧ (CreateIndex c1s).indexFile ≠ none := by
  decide

/-- Claim C1, amended: CreateIndex creates (truncates) the index file before
any parsing and never removes it, so an index file is left on disk for every
source stream and terminal condition — and it is always empty, because a
non-EndOfStream termination skips the write loop while the EndOfStream
write path writes nothing for an empty offset list and panics before
writing for a nonempty one. -/
theorem claim1_index_file_always_left (s : ByteStream) :
    (CreateIndex s).indexFile = some [] := by
  unfold CreateIndex
  cases h : readHeader s with
  | error e => rfl
  | ok hdr =>
    rcases hs : scan hdr.num_decompressed_checksums hdr.num_compressed_checksums s
        { pos := hdr.pos, indexes := [] } with ⟨st, e⟩
    by_cases he : e = BlockErr.readFail IOErr.eofErr
    · rcases hw : writeIndexes st.indexes with - | c
      · simp [hs, he, hw]
      · obtain ⟨-, hc⟩ := writeIndexes_some st.indexes c hw
        subst hc
        simp [hs, he, hw]
    · simp [hs, he]

/-- Claim C2: the index writer is claimed to emit exactly 8 big-endian bytes
per offset. The code instead allocates a zero-length buffer and calls
PutUint64 on it, which panics. The empty offset list does produce zero
bytes, but on the one-block stream c2ByteStream (offset list [38]) the
write loop panics and CreateIndex ends in a panic with an empty index file
on disk. -/
theorem claim2_writer_bug :
    writeIndexes [] = some [] ∧ writeIndexes [38] = none ∧
      CreateIndex c2ByteStream = { indexFile := some [], outcome := .panicked } :=
  ⟨rfl, rfl, rfl⟩

/-- Claim C3: CreateIndex is claimed to return the FormatError for an
invalid header. On the bad-magic stream c3s the header parser does produce
the FormatError, but CreateIndex never checks the error returned by
NewIndexer: it calls findBlock on a nil Indexer and panics instead of
returning the error. -/
theorem claim3_panic_bug :
    readHeader c3s = .error HErr.invalidHeader ∧
      CreateIndex c3s = { indexFile := some [], outcome := .panicked } :=
  ⟨rfl, rfl⟩

/-- Claim C4: the version floor check is claimed to reject a parsed
formatVersion below 0x0900 with a FormatError, driven by the parsed value.
The code compares the package constant instead: on c4a (magic, then version
0x0800, then end of stream) parsing walks past the version check and fails
with an io error on the next field, and on c4b (version 0x0800 with library
version 0x0900) it reaches the library-version comparison and fails there
with the incompatible-version error — never at the version floor check. -/
theorem claim4_version_check_bug :
    readHeader c4a = .error (HErr.readFail IOErr.eofErr) ∧
      readHeader c4b = .error HErr.incompatibleVersion :=
  ⟨rfl, rfl⟩

/-- Claim C5: a valid non-sentinel block at blockStart makes the scanner
skip numD + (numC if stored) checksum fields and seek to
blockStart + 8 + srcLen + 4 * that count, appending blockStart; and for a
stream of two stored blocks with no checksum fields followed by the
sentinel, the offset list is exactly [p, p + 8 + srcLen of block 1]. -/
theorem claim5_block_advance :
    (∀ (numD numC : Nat) (s : ByteStream) (st : ScanState) (dstLen srcLen : Nat),
      readU32 s st.pos = .ok dstLen → dstLen ≠ 0 →
      readU32 s (st.pos + 4) = .ok srcLen → 0 < srcLen → srcLen ≤ dstLen →
      findBlock numD numC s st =
        ({ pos := st.pos + 8 + srcLen + 4 * (numD + if dstLen = srcLen then numC else 0),
           indexes := st.indexes ++ [st.pos] }, none))
    ∧ (∀ (s : ByteStream) (p l1 l2 : Nat),
      readU32 s p = .ok l1 → readU32 s (p + 4) = .ok l1 → 0 < l1 →
      readU32 s (p + 8 + l1) = .ok l2 → readU32 s (p + 12 + l1) = .ok l2 → 0 < l2 →
      readU32 s (p + 16 + l1 + l2) = .ok 0 →
      (scan 0 0 s { pos := p, indexes := [] }).1.indexes = [p, p + 8 + l1]) := by
  have hgen : ∀ (numD numC : Nat) (s : ByteStream) (st : ScanState) (dstLen srcLen : Nat),
      readU32 s st.pos = .ok dstLen → dstLen ≠ 0 →
      readU32 s (st.pos + 4) = .ok srcLen → 0 < srcLen → srcLen ≤ dstLen →
      findBlock numD numC s st =
        ({ pos := st.pos + 8 + srcLen + 4 * (numD + if dstLen = srcLen then numC else 0),
           indexes := st.indexes ++ [st.pos] }, none) := by
    intro numD numC s st dstLen srcLen h1 h2 h3 h4 h5
    unfold findBlock
    simp only [h1, h3]
    rw [if_neg h2, if_neg (by omega)]
    simp [Nat.add_sub_cancel]
  refine ⟨hgen, ?_⟩
  intro s p l1 l2 h1 h2 h3 h4 h5 h6 h7
  have h5a : readU32 s (p + 8 + l1 + 4) = .ok l2 := by
    rw [show p + 8 + l1 + 4 = p + 12 + l1 by omega]
    exact h5
  have h7a : readU32 s (p + 8 + l1 + 8 + l2) = .ok 0 := by
    rw [show p + 8 + l1 + 8 + l2 = p + 16 + l1 + l2 by omega]
    exact h7
  have hb1 : findBlock 0 0 s { pos := p, indexes := [] } =
      ({ pos := p + 8 + l1, indexes := [p] }, none) := by
    have h := hgen 0 0 s { pos := p, indexes := [] } l1 l1 h1 (by omega) h2 h3 (le_refl l1)
    simpa using h
  have hb2 : findBlock 0 0 s { pos := p + 8 + l1, indexes := [p] } =
      ({ pos := p + 8 + l1 + 8 + l2, indexes := [p, p + 8 + l1] }, none) := by
    have h := hgen 0 0 s { pos := p + 8 + l1, indexes := [p] } l2 l2 h4 (by omega) h5a
      (by omega) (le_refl l2)
    simpa using h
  have hb3 : findBlock 0 0 s { pos := p + 8 + l1 + 8 + l2, indexes := [p, p + 8 + l1] } =
      ({ pos := p + 8 + l1 + 8 + l2 + 4, indexes := [p, p + 8 + l1] },
        some (.readFail .eofErr)) := by
    unfold findBlock
    simp only [h7a]
    simp
  have hlen := readU32_ok_le s (p + 16 + l1 + l2) 0 h7
  obtain ⟨f, hf⟩ : ∃ f, s.length + 1 = f + 1 + 1 + 1 := ⟨s.length - 2, by omega⟩
  unfold scan
  rw [hf,
      scanAux_step 0 0 s (f + 1 + 1) _ _ hb1,
      scanAux_step 0 0 s (f + 1) _ _ hb2,
      scanAux_stop 0 0 s f _ _ _ hb3]

/-- Claim C5, witness: on the stream w5 (stored block of srcLen 1, stored
block of srcLen 2, sentinel; no checksum fields) scanned from position 0,
the first step appends 0 and seeks to 9, and the final offset list is
[0, 9] = [0, 0 + 8 + 1]. -/
theorem claim5_block_advance_witness :
    findBlock 0 0 w5 { pos := 0, indexes := [] } = ({ pos := 9, indexes := [0] }, none)
    ∧ (scan 0 0 w5 { pos := 0, indexes := [] }).1.indexes = [0, 9] := by
  constructor
  · have h := claim5_block_advance.1 0 0 w5 { pos := 0, indexes := [] } 1 1 rfl
      (by decide) rfl (by decide) (by decide)
    simpa using h
  · exact claim5_block_advance.2 w5 0 1 2 rfl rfl (by decide) rfl rfl (by decide) rfl

/-- Claim C6: for a stream whose header fields parse successfully up to the
checksum position, readHeader fails with the FormatError lzo: invalid
header exactly when the declared checksum field differs from the running
checksum of the header bytes after the magic — CRC-32 when flagCRC32 is
set, Adler-32 otherwise. -/
theorem claim6_header_checksum (s : ByteStream) (pre : IndexHeader) (declared : Nat)
    (hpre : readHeaderPre s = .ok pre)
    (hread : readU32 s pre.pos = .ok declared) :
    (readHeader s = .error .invalidHeader ↔
      declared ≠ (if pre.flags &&& flagCRC32 ≠ 0 then crc32 (headerBytes s pre.pos)
                  else adler32 (headerBytes s pre.pos))) := by
  unfold readHeader
  simp only [hpre, hread]
  by_cases hc : declared =
      (if pre.flags &&& flagCRC32 ≠ 0 then crc32 (headerBytes s pre.pos)
       else adler32 (headerBytes s pre.pos))
  · simp only [hc, ite_not]
    simp
    split <;> simp
  · rw [if_pos hc]
    exact iff_of_true rfl hc

/-- Claim C6, witness: the stream w6 parses up to the checksum field at
position 34 with flags 0, its declared checksum field is 0, and readHeader
rejects it exactly when 0 differs from the selected running checksum (the
Adler-32, as flagCRC32 is clear). -/
theorem claim6_header_checksum_witness :
    readHeader w6 = .error .invalidHeader ↔
      (0 : Nat) ≠ (if w6hdr.flags &&& flagCRC32 ≠ 0 then crc32 (headerBytes w6 w6hdr.pos)
                   else adler32 (headerBytes w6 w6hdr.pos)) :=
  claim6_header_checksum w6 w6hdr 0 rfl rfl

/-- Claim C7: on a block whose dstLen read is nonzero and whose srcLen read
succeeds, the scanner reports the corruption error exactly when srcLen = 0
or srcLen exceeds dstLen, and accepts the block (no error) whenever
0 < srcLen and srcLen is at most dstLen. -/
theorem claim7_srclen_check (numD numC : Nat) (s : ByteStream) (st : ScanState)
    (dstLen srcLen : Nat)
    (h1 : readU32 s st.pos = .ok dstLen) (h2 : dstLen ≠ 0)
    (h3 : readU32 s (st.pos + 4) = .ok srcLen) :
    ((findBlock numD numC s st).2 = some .corruption ↔ (srcLen = 0 ∨ dstLen < srcLen))
    ∧ (0 < srcLen → srcLen ≤ dstLen → (findBlock numD numC s st).2 = none) := by
  unfold findBlock
  simp only [h1, h3]
  rw [if_neg h2]
  by_cases hc : srcLen ≤ 0 ∨ srcLen > dstLen
  · rw [if_pos hc]
    constructor
    · simp
      omega
    · intro hs hd
      omega
  · rw [if_neg hc]
    refine ⟨?_, fun hs hd => rfl⟩
    simp
    omega

/-- Claim C7, witness: the stream w7 declares dstLen 1 and srcLen 2, an
expanding block, and the scanner reports the corruption error. -/
theorem claim7_srclen_check_witness :
    (findBlock 0 0 w7 { pos := 0, indexes := [] }).2 = some .corruption :=
  (claim7_srclen_check 0 0 w7 { pos := 0, indexes := [] } 1 2 rfl (by decide) rfl).1.mpr
    (Or.inr (by decide))

/-- Claim C8: for every stream and start position, the offset list produced
by the scan is strictly increasing, and every recorded offset addresses the
first byte of the dstLen field of a well-formed block: reading 4 bytes
there yields that nonzero dstLen, followed by a srcLen with
0 < srcLen ≤ dstLen. -/
theorem claim8_offsets_invariant (numD numC : Nat) (s : ByteStream) (p : Nat) :
    ((scan numD numC s { pos := p, indexes := [] }).1.indexes.Pairwise (· < ·))
    ∧ ∀ o ∈ (scan numD numC s { pos := p, indexes := [] }).1.indexes, goodBlockAt s o := by
  have h := scanAux_inv numD numC s (s.length + 1) { pos := p, indexes := [] }
    ⟨List.Pairwise.nil, by simp⟩
  exact ⟨h.1, fun o ho => (h.2 o ho).2⟩

/-- Claim C9: every stream of at least 9 bytes whose first 9 bytes differ
from the fixed lzop signature in any position is rejected by readHeader
with the FormatError lzo: invalid header. -/
theorem claim9_magic_check (s : ByteStream) (h1 : 9 ≤ s.length)
    (h2 : s.take 9 ≠ lzoMagic) : readHeader s = .error .invalidHeader := by
  have hb : readBytes s 0 9 = .ok (s.take 9) := by
    unfold readBytes
    rw [if_pos (by omega)]
    simp
  have hpre : readHeaderPre s = .error .invalidHeader := by
    unfold readHeaderPre
    simp only [hb]
    simp [h2]
  unfold readHeader
  simp only [hpre]

/-- Claim C9, witness: nine zero bytes are not the magic and are rejected. -/
theorem claim9_magic_check_witness :
    readHeader (List.replicate 9 0) = .error .invalidHeader :=
  claim9_magic_check (List.replicate 9 0) (by decide) (by decide)

/-- Claim C10: every findBlock call that reports a terminal condition
(sentinel, corruption, or read failure) leaves the offset list unchanged;
an offset is appended only on full validation of a block. -/
theorem claim10_no_append_on_error (numD numC : Nat) (s : ByteStream) (st : ScanState)
    (e : BlockErr) (h : (findBlock numD numC s st).2 = some e) :
    (findBlock numD numC s st).1.indexes = st.indexes := by
  rcases hfb : findBlock numD numC s st with ⟨st', e'⟩
  rw [hfb] at h
  dsimp only at h
  subst h
  exact (findBlock_err numD numC s st st' e hfb).1

/-- Claim C10, witness: a read failure on the empty stream leaves the
offset list [1, 2] unchanged. -/
theorem claim10_no_append_on_error_witness :
    (findBlock 0 0 ([] : ByteStream) { pos := 5, indexes := [1, 2] }).1.indexes = [1, 2] :=
  claim10_no_append_on_error 0 0 [] { pos := 5, indexes := [1, 2] } (.readFail .eofErr) rfl
